import Mathlib

/-!
Verification of the LumoAI client-side lecture video compositor
(`src/unnamed/part_001`, richer variant of `exportLectureToWebM`, together
with `src/services/videoExporter.ts`).  The definitions below are shallow
embeddings of the TypeScript source: pure functions become Lean functions,
canvas painting becomes an explicit trace of draw operations, the stateful
snapshot cache becomes explicit state passing, and the exception structure
of the export pipeline becomes a small step interpreter.  JavaScript
numbers are modelled by `ℚ` (all the arithmetic the claims touch is exact),
`Math.floor`/`Math.ceil` by executable integer floor/ceiling on `ℚ`.
-/

/-! ## JavaScript string primitives

`String.prototype.trim` and `String.prototype.split` are modelled by
structurally recursive functions over the character list so that concrete
witnesses evaluate inside the kernel. -/

/-- Embedding of JavaScript `s.trim()`: drop whitespace from both ends. -/
def jsTrim (s : String) : String :=
  ⟨((s.data.dropWhile Char.isWhitespace).reverse.dropWhile Char.isWhitespace).reverse⟩

/-- Split a character list at every character satisfying `p`, keeping empty
chunks (the semantics of JavaScript `String.prototype.split` with a
single-character class). -/
def splitOnPred (p : Char → Bool) : List Char → List (List Char)
  | [] => [[]]
  | c :: rest =>
    match splitOnPred p rest with
    | [] => [[]]
    | t :: ts => if p c then [] :: t :: ts else (c :: t) :: ts

/-- Embedding of `text.trim().split(/\s+/)` (as used by `wrapText` line 13 and
`drawBulletList` line 158 of `src/unnamed/part_001`): the maximal non-empty
runs of non-whitespace characters, in order.  Splitting at every whitespace
character and discarding empty chunks yields exactly those runs. -/
def jsSplitWhitespace (s : String) : List String :=
  ((splitOnPred Char.isWhitespace s.data).map fun cs => String.mk cs).filter (· ≠ "")

/-- Embedding of `summarySource.split(/[\.;\n]/).map(s => s.trim()).filter(Boolean)`
(`drawSlide`, lines 740–743): split the body text on sentence punctuation and
newlines, trim each segment, drop the empty ones. -/
def jsSplitSegments (s : String) : List String :=
  ((splitOnPred (fun c => c == '.' || c == ';' || c == '\n') s.data).map
      fun cs => jsTrim (String.mk cs)).filter (· ≠ "")

/-! ## Greedy word wrap (`wrapText`, lines 8–30, and the inline wrap of
`drawBulletList`, lines 158–174)

A line under construction is represented by the list of words it holds.
In `wrapText` the mutable `line` variable always carries a trailing space:
a line holding words `ws` is the string `renderLine ws true`, and the final
`line.trimEnd()` is `renderLine ws false` (the words produced by
`split(/\s+/)` contain no whitespace, so `trimEnd` removes exactly the one
trailing space).  `drawBulletList` builds its lines without trailing
spaces, so its lines are `renderLine ws false` throughout. -/

/-- Render a line from its words; `trail` records whether the string carries
the trailing space that `wrapText`'s accumulator keeps. -/
def renderLine (ws : List String) (trail : Bool) : String :=
  if trail then String.intercalate " " ws ++ " " else String.intercalate " " ws

/-- Loop of `wrapText` after the first word has been consumed (the `n = 0`
iteration always extends the line because of the `n > 0` guard, so the loop
is entered with `line = words[0] + ' '`).  Each committed line is returned
together with the flag saying whether it was printed with its trailing space
(`true` for the in-loop `ctx.fillText(line, …)`, `false` for the final
`ctx.fillText(line.trimEnd(), …)`). -/
def wrapTextAux (measure : String → ℚ) (maxW : ℚ) :
    List String → List String → List (List String × Bool)
  | [], lineWs => [(lineWs, false)]
  | w :: ws, lineWs =>
    if maxW < measure (renderLine (lineWs ++ [w]) true) then
      (lineWs, true) :: wrapTextAux measure maxW ws [w]
    else
      wrapTextAux measure maxW ws (lineWs ++ [w])

/-- The committed lines of `wrapText` on a word list.  An empty input models
`if (!trimmed) return 0`: nothing is printed. -/
def wrapTextLines (measure : String → ℚ) (maxW : ℚ) :
    List String → List (List String × Bool)
  | [] => []
  | w :: ws => wrapTextAux measure maxW ws [w]

/-- Number of committed lines times the line height: `wrapText`'s return value
`(lineCount + 1) * lineHeight`, and `0` for blank input. -/
def wrapTextHeight (measure : String → ℚ) (maxW lineHeight : ℚ) (text : String) : ℚ :=
  (wrapTextLines measure maxW (jsSplitWhitespace text)).length * lineHeight

/-- Loop of the inline wrap in `drawBulletList` (lines 160–174): `cur` is the
word list of `currentLine` (empty for the empty string), the test line is
`currentLine ? currentLine + ' ' + word : word`, a line is committed only
when `currentLine` is non-empty, and the final non-empty `currentLine` is
pushed at the end. -/
def bulletWrapAux (measure : String → ℚ) (maxW : ℚ) :
    List String → List String → List (List String)
  | [], cur => if cur = [] then [] else [cur]
  | w :: ws, cur =>
    if maxW < measure (renderLine (cur ++ [w]) false) ∧ cur ≠ [] then
      cur :: bulletWrapAux measure maxW ws [w]
    else
      bulletWrapAux measure maxW ws (cur ++ [w])

/-- The wrapped lines of one bullet item. -/
def bulletWrapLines (measure : String → ℚ) (maxW : ℚ) (words : List String) :
    List (List String) :=
  bulletWrapAux measure maxW words []

/-- Every committed line of `wrapText` fits in the available width, except
possibly a line made of one single (unbreakable) word. -/
def fitsAll (measure : String → ℚ) (maxW : ℚ) (lines : List (List String × Bool)) : Prop :=
  ∀ p ∈ lines, measure (renderLine p.1 p.2) ≤ maxW ∨ p.1.length = 1

/-- Every line of the bullet-list wrap fits, except possibly a single-word line. -/
def bulletFitsAll (measure : String → ℚ) (maxW : ℚ) (lines : List (List String)) : Prop :=
  ∀ ws ∈ lines, measure (renderLine ws false) ≤ maxW ∨ ws.length = 1

/-! ## Source loader: page clamping and the per-export snapshot cache
(`renderPdfPageToDataUrl` lines 67–94, `getPdfSnapshotImage` lines 96–110)

Page requests come in as integers (`slide.pdfPage` or the round-robin
assignment); `Math.floor` is the identity on them.  A rendered page is
identified by its clamped page number: the cache stores one in-flight
promise per clamped number, so the bitmap a request resolves to is
determined by the clamped key, and a rendering is started exactly when the
key is inserted. -/

/-- Embedding of `Math.min(Math.max(1, Math.floor(pageNumber)), pdf.numPages)`
on integer page numbers (lines 73 and 101). -/
def clampPage (numPages : ℤ) (n : ℤ) : ℤ :=
  min (max 1 n) numPages

/-- The snapshot cache of one export: the clamped page numbers for which a
rendering has been started, in insertion order (the key set of the `Map`
threaded through `getPdfSnapshotImage`). -/
structure SnapshotCache where
  started : List ℤ
  deriving DecidableEq

/-- Embedding of `getPdfSnapshotImage` (lines 96–110): clamp the request,
start (and memoize) a rendering only if the clamped key is not cached yet,
and return the promise stored under the clamped key — identified here by
the key itself, since the cache holds exactly one promise per key.  The
`has`/`set` pair runs synchronously before any suspension point, so no two
requests can interleave inside it. -/
def getPdfSnapshotImage (numPages : ℤ) (n : ℤ) (cache : SnapshotCache) :
    ℤ × SnapshotCache :=
  let clamped := clampPage numPages n
  if clamped ∈ cache.started then (clamped, cache)
  else (clamped, ⟨cache.started ++ [clamped]⟩)

/-- Run a sequence of snapshot requests against the cache, as the per-slide
loop of `exportLectureToWebM` does. -/
def runSnapshotRequests (numPages : ℤ) (reqs : List ℤ) (cache : SnapshotCache) :
    SnapshotCache :=
  reqs.foldl (fun c n => (getPdfSnapshotImage numPages n c).2) cache

/-- The page actually rasterized by `renderPdfPageToDataUrl` for a request
(line 73: the function clamps its argument again before `pdf.getPage`). -/
def renderedPage (numPages : ℤ) (n : ℤ) : ℤ :=
  clampPage numPages n

/-! ## Slide duration (`exportLectureToWebM`, lines 910–928)

The audio branch awaits `onended`/`onerror` (both resolve the same promise)
and then computes
`playbackMs = Math.floor(audio.currentTime*1000) || Math.floor(audio.duration*1000) || defaultDur`
and `durationMs = Math.max(defaultDur, playbackMs + 280)`.  The falsy values
`0` and `NaN` of the `||` chain are both modelled by `0`. -/

/-- Outcome of the narration audio of one slide. -/
inductive AudioOutcome
  /-- `slide.audioUrl` is absent: the audio branch is skipped entirely. -/
  | noAudio
  /-- The `try` block threw (e.g. `audio.play()` rejected): the `catch`
  assigns `durationMs = defaultDur`. -/
  | playFailed
  /-- `onended` fired; the fields are the floored milliseconds of
  `audio.currentTime` and `audio.duration` at that point (`0` for `NaN`). -/
  | ended (currentTimeMs durationAttrMs : ℚ)
  /-- `onerror` fired, with the same measurements. -/
  | errored (currentTimeMs durationAttrMs : ℚ)
  deriving DecidableEq

/-- The `playbackMs` fallback chain of line 923. -/
def measuredPlaybackMs (defaultDur : ℚ) (currentTimeMs durationAttrMs : ℚ) : ℚ :=
  if currentTimeMs ≠ 0 then currentTimeMs
  else if durationAttrMs ≠ 0 then durationAttrMs
  else defaultDur

/-- The computed on-screen duration of a slide (lines 910–928). -/
def slideDurationMs (defaultDur : ℚ) (a : AudioOutcome) : ℚ :=
  match a with
  | .noAudio => defaultDur
  | .playFailed => defaultDur
  | .ended ct da => max defaultDur (measuredPlaybackMs defaultDur ct da + 280)
  | .errored ct da => max defaultDur (measuredPlaybackMs defaultDur ct da + 280)

/-! ## Frame pacing and progress (`exportLectureToWebM`, lines 930–936)

`frames = Math.max(1, Math.ceil(durationMs / (1000 / fps)))`, and frame `i`
repaints with `progress = frames > 1 ? i / (frames - 1) : 1`.  `Math.floor`
and `Math.ceil` are given executable embeddings on `ℚ` (Euclidean division
realizes the floor) and bridged to Mathlib's `⌊·⌋`/`⌈·⌉` below. -/

/-- Executable embedding of `Math.floor` on exact rationals. -/
def jsFloor (q : ℚ) : ℤ :=
  q.num / (q.den : ℤ)

/-- Executable embedding of `Math.ceil` on exact rationals. -/
def jsCeil (q : ℚ) : ℤ :=
  -jsFloor (-q)

/-- Number of timed repaint frames for one slide (line 930). -/
def framesFor (durationMs fps : ℚ) : ℕ :=
  max 1 (jsCeil (durationMs / (1000 / fps))).toNat

/-- The sequence of progress fractions passed to the per-frame repaints of
one slide (lines 931–935). -/
def progressSeq (frames : ℕ) : List ℚ :=
  (List.range frames).map fun i : ℕ =>
    if 1 < frames then (i : ℚ) / ((frames : ℚ) - 1) else 1

/-! ## Snapshot page resolution (`exportLectureToWebM`, lines 886–894) -/

/-- Embedding of the `resolvedPdfPage` conditional: a slide that specifies a
page number `≥ 1` keeps it; otherwise, when a PDF document is attached and
has pages, the slide is assigned `(slideIndex % totalPdfPages) + 1`; with no
document (or an empty one) it gets no snapshot page. -/
def resolvedPdfPage (hasPdf : Bool) (totalPdfPages : ℕ) (slideIndex : ℕ)
    (slidePdfPage : Option ℤ) : Option ℤ :=
  if hasPdf then
    match slidePdfPage with
    | some p =>
      if 1 ≤ p then some p
      else if totalPdfPages ≠ 0 then some ((slideIndex % totalPdfPages : ℕ) + 1 : ℕ)
      else none
    | none =>
      if totalPdfPages ≠ 0 then some ((slideIndex % totalPdfPages : ℕ) + 1 : ℕ)
      else none
  else
    match slidePdfPage with
    | some p => if 1 ≤ p then some p else none
    | none => none

/-! ## Exception structure of the export pipeline
(`exportLectureToWebM`, lines 854–950; `src/services/videoExporter.ts`
lines 71–143 has the same shape)

The function body is a straight-line sequence of stages.  `loadPdfDocumentFromDraft`
and `pdfDocument?.destroy()` sit inside their own `try`/`catch` and cannot
propagate; the `getContext` check throws before the audio context exists;
the `MediaRecorder` constructor, `recorder.start()`, the render loop
(uncaught canvas failures) and `recorder.stop()` can all throw after
`new AudioCtx()` has run; and `audioCtx.close()` is reached only at the very
end of the body — there is no `finally` wrapping it. -/

/-- The stages of `exportLectureToWebM` that can throw an exception the
function does not catch. -/
inductive FailPoint
  /-- Line 868: `if (!ctx) throw new Error('Canvas 2D not supported')`. -/
  | canvasContext
  /-- Line 879: `new MediaRecorder(...)` (e.g. unsupported mime type). -/
  | mediaRecorderCtor
  /-- Line 883: `recorder.start()`. -/
  | recorderStart
  /-- Lines 885–937: an uncaught failure inside the per-slide render loop. -/
  | renderLoop
  /-- Line 942: `recorder.stop()`. -/
  | recorderStop
  deriving DecidableEq

/-- One statement of the function body, at the granularity relevant to
resource release. -/
inductive ExportStep
  /-- A stage whose failures are swallowed by a local `try`/`catch`
  (`loadPdfDocumentFromDraft`, `pdfDocument?.destroy()`). -/
  | guarded
  /-- `const audioCtx = new AudioCtx()` (line 872). -/
  | createAudioCtx
  /-- A stage that throws when the fault oracle names it. -/
  | fallible (p : FailPoint)
  /-- `try { audioCtx.close(); } catch {}` (line 948). -/
  | closeAudioCtx

/-- Resource state observed by claim C2. -/
structure ExportState where
  audioCtxCreated : Bool
  audioCtxClosed : Bool
  deriving DecidableEq

/-- Run the statement list; the Boolean result is `true` iff the body ran to
completion (no uncaught exception). -/
def runExportSteps (fault : Option FailPoint) :
    List ExportStep → ExportState → Bool × ExportState
  | [], st => (true, st)
  | .guarded :: rest, st => runExportSteps fault rest st
  | .createAudioCtx :: rest, st =>
    runExportSteps fault rest { st with audioCtxCreated := true }
  | .fallible p :: rest, st =>
    if fault = some p then (false, st) else runExportSteps fault rest st
  | .closeAudioCtx :: rest, st =>
    runExportSteps fault rest { st with audioCtxClosed := true }

/-- The statement sequence of `exportLectureToWebM` (lines 854–950), in
source order. -/
def exportProgram : List ExportStep :=
  [ .guarded,                        -- loadPdfDocumentFromDraft (try/catch inside, lines 56–64)
    .fallible .canvasContext,        -- line 868, before the audio context exists
    .createAudioCtx,                 -- line 872
    .fallible .mediaRecorderCtor,    -- line 879
    .fallible .recorderStart,        -- line 883
    .fallible .renderLoop,           -- lines 885–937
    .guarded,                        -- try { pdfDocument?.destroy(); } catch {} (line 939)
    .fallible .recorderStop,         -- line 942
    .closeAudioCtx ]                 -- try { audioCtx.close(); } catch {} (line 948)

/-- Execute one export with the given fault oracle (`none` = nothing throws,
`some p` = stage `p` throws when reached). -/
def runExport (fault : Option FailPoint) : Bool × ExportState :=
  runExportSteps fault exportProgram ⟨false, false⟩

/-! ## Slide data and the slide-painting trace (`drawSlide`, lines 639–852)

The painting functions only side-effect the drawing surface; they are
embedded as producers of a trace of draw operations.  Coordinates, colors
and gradients are abstracted away (no claim depends on them); the trace
records which primitives are painted, in paint order, together with every
piece of text content. -/

/-- The `Slide` record of `types.ts` (the fields the compositor reads). -/
structure Slide where
  description : String
  imageUrl : Option String
  audioUrl : Option String
  heading : Option String
  visualTheme : Option String
  codeSnippet : Option String
  snippetLanguage : Option String
  pdfExcerpt : Option String
  pdfPage : Option ℤ
  voiceover : Option String
  deriving DecidableEq

/-- Embedding of `slide.heading?.trim() || 'Key Insight'` (line 725). -/
def resolvedHeading (heading : Option String) : String :=
  let t := match heading with
    | none => ""
    | some h => jsTrim h
  if t ≠ "" then t else "Key Insight"

/-- Embedding of `(slide.voiceover && slide.voiceover.trim()) || slide.description || ''`
(line 726): an absent or empty voiceover is falsy, a non-empty one
contributes its trimmed text, and a whitespace-only one trims to the falsy
empty string; either way the body text falls back to `description`. -/
def summarySource (voiceover : Option String) (description : String) : String :=
  let lhs := match voiceover with
    | none => ""
    | some v => if v = "" then "" else jsTrim v
  if lhs ≠ "" then lhs else description

/-- One painted primitive of the slide-painting trace. -/
inductive DrawOp
  /-- `ctx.clearRect` over the whole surface (line 650). -/
  | clearRect
  /-- A full-surface fill: background gradient, vignette or overlay. -/
  | fillFull
  /-- The background image painted cover-cropped at reduced opacity. -/
  | drawImageCover
  /-- The drop-shadowed content card fill (lines 703–711). -/
  | cardFill
  /-- The card's gradient stroke (lines 717–723). -/
  | cardStroke
  /-- One committed line of wrapped text (`ctx.fillText`). -/
  | fillTextLine (text : String)
  /-- The colored dot in front of a bullet item's first line. -/
  | bulletDot
  /-- The PDF-page snapshot image, clipped to a rounded rect (lines 434–445). -/
  | snapshotImage
  /-- The gradient stroke around the snapshot (lines 447–456). -/
  | snapshotStroke
  /-- The page-number badge over the snapshot (lines 458–469). -/
  | snapshotPageBadge (page : ℤ)
  /-- The bordered excerpt panel (lines 366–377). -/
  | excerptPanel
  /-- The excerpt label text (lines 379–385). -/
  | excerptLabel (text : String)
  /-- The dark rounded code panel with its stroke (lines 300–315). -/
  | codePanel
  /-- The language chip on the code panel (lines 317–328). -/
  | codeChip (language : String)
  /-- One truncated source line of the code panel. -/
  | codeLine (text : String)
  /-- The neutral placeholder panel (lines 795–801). -/
  | placeholderPanel
  /-- The placeholder label (line 805). -/
  | placeholderLabel (text : String)
  /-- The decorative accent arcs of `drawTechAccent` (lines 114–123). -/
  | accentArcs
  /-- The random speckle pattern of `drawTechAccent` (lines 125–133);
  positions are random and abstracted. -/
  | accentSpeckle
  /-- The progress-bar track (lines 843–846). -/
  | progressTrack
  /-- The progress-bar fill with its computed completion fraction
  (lines 841, 848–850). -/
  | progressFill (completion : ℚ)
  deriving DecidableEq

/-- Embedding of `language.toUpperCase()`. -/
def jsToUpper (s : String) : String :=
  String.mk (s.data.map Char.toUpper)

/-- Character-by-character truncation of one code line to the panel width
(`drawCodeSnippet`, lines 339–344): grow the rendered prefix while it still
measures within the available width, stop at the first overflow. -/
def truncateToWidth (measure : String → ℚ) (avail : ℚ) (line : String) : String :=
  (line.data.foldl
    (fun (acc : String × Bool) c =>
      if acc.2 then acc
      else
        let t := acc.1.push c
        if avail < measure t then (acc.1, true) else (t, false))
    ("", false)).1

/-- Split source code on `/\r?\n/` (`drawCodeSnippet`, line 291). -/
def splitCodeLines : List Char → List (List Char)
  | [] => [[]]
  | '\r' :: '\n' :: rest =>
    match splitCodeLines rest with
    | ts => [] :: ts
  | '\n' :: rest =>
    match splitCodeLines rest with
    | ts => [] :: ts
  | c :: rest =>
    match splitCodeLines rest with
    | [] => [[]]
    | t :: ts => (c :: t) :: ts

/-- The code lines after splitting and replacing each tab by two spaces
(`drawCodeSnippet`, line 291). -/
def codeLines (code : String) : List String :=
  (splitCodeLines code.data).map fun cs =>
    String.mk (cs.foldr (fun c acc => if c == '\t' then ' ' :: ' ' :: acc else c :: acc) [])

/-- Trace of `drawCodeSnippet` (lines 281–348): the dark panel, the optional
language chip, then each line truncated to the panel width, up to as many
lines as fit the available height. -/
def drawCodeSnippetOps (measure : String → ℚ) (code : String)
    (language : Option String) (width maxHeight : ℚ) : List DrawOp :=
  let lines := codeLines code
  if lines = [] then []
  else
    let hasLang := match language with
      | some l => l != ""
      | none => false
    let headerHeight : ℚ := if hasLang then 38 else 0
    let contentHeight := min ((lines.length : ℚ) * 30) (maxHeight - 20 * 2 - headerHeight)
    let maxLines := (jsFloor (contentHeight / 30)).toNat
    [DrawOp.codePanel] ++
      (match language with
        | some l => if l ≠ "" then [DrawOp.codeChip (jsToUpper l)] else []
        | none => []) ++
      (lines.take maxLines).map fun l =>
        DrawOp.codeLine (truncateToWidth measure (width - 20 * 2) l)

/-- Loop of the excerpt wrap in `drawPdfExcerpt` (lines 392–409): like the
bullet wrap, except that an overlong word arriving on an empty line is
pushed immediately (alone) and the line restarts empty. -/
def excerptWrapAux (measure : String → ℚ) (maxW : ℚ) :
    List String → List String → List (List String)
  | [], cur => if cur = [] then [] else [cur]
  | w :: ws, cur =>
    if maxW < measure (renderLine (cur ++ [w]) false) then
      if cur ≠ [] then cur :: excerptWrapAux measure maxW ws [w]
      else (cur ++ [w]) :: excerptWrapAux measure maxW ws []
    else
      excerptWrapAux measure maxW ws (cur ++ [w])

/-- Trace of `drawPdfExcerpt` (lines 350–418): nothing for a blank excerpt;
otherwise the bordered panel, the page label, and the wrapped body clipped
to the number of whole lines that fit the height. -/
def drawPdfExcerptOps (measure : String → ℚ) (excerpt : String)
    (page : Option ℤ) (width height : ℚ) : List DrawOp :=
  if jsTrim excerpt = "" then []
  else
    let label := match page with
      | some p => if p ≠ 0 then "PDF Page " ++ toString p else "PDF Reference"
      | none => "PDF Reference"
    let lines := excerptWrapAux measure (width - 20 * 2) (jsSplitWhitespace excerpt) []
    let maxLines := max 1 (jsFloor ((height - 20 - 30) / 26)).toNat
    [DrawOp.excerptPanel, DrawOp.excerptLabel label] ++
      (lines.take maxLines).map fun ws => DrawOp.fillTextLine (renderLine ws false)

/-- Trace of `drawPdfSnapshot` (lines 420–472): the cover-cropped image in a
rounded clip, its gradient stroke, and the page badge when the page number
is truthy. -/
def drawPdfSnapshotOps (page : Option ℤ) : List DrawOp :=
  [DrawOp.snapshotImage, DrawOp.snapshotStroke] ++
    (match page with
      | some p => if p ≠ 0 then [DrawOp.snapshotPageBadge p] else []
      | none => [])

/-- Trace of `drawBulletList` (lines 136–197) together with the vertical
offset it returns: items wrap at the column width, a blank item or an item
with no lines is skipped, each drawn item contributes its dot, its text
lines, and `lineHeight * lines.length + 12` of offset. -/
def drawBulletListOps (measure : String → ℚ) (items : List String)
    (maxW lineHeight : ℚ) : List DrawOp × ℚ :=
  items.foldl
    (fun acc item =>
      let lines := bulletWrapLines measure maxW (jsSplitWhitespace item)
      if lines = [] then acc
      else
        (acc.1 ++ [DrawOp.bulletDot] ++
            lines.map fun ws => DrawOp.fillTextLine (renderLine ws false),
         acc.2 + lineHeight * (lines.length : ℚ) + 12))
    ([], 0)

/-- The fixed placeholder label of the empty-slide panel (line 805). -/
def placeholderText : String :=
  "Visual will appear here after export"

/-- Trace of `drawSlide` (lines 639–852), with geometry and colors abstracted
but every branch condition and every numeric value that gates a branch kept
exactly: clear, background gradient, optional cover image, vignette and
overlay, card fill and stroke, wrapped heading, then the snapshot /
image / placeholder layout with bullet summary and optional excerpt, the
optional code panel, the decorative accent when no image is present, and the
two-layer progress bar.  The image handles are abstracted to presence flags
(their pixel sizes never gate a branch). -/
def drawSlideOps (measure : String → ℚ) (slide : Slide)
    (backgroundImage snapshotImage : Bool) (width height : ℚ)
    (slideIndex totalSlides : ℕ) (progress : ℚ) : List DrawOp :=
  let hasSnapshot := snapshotImage
  let cardWidth := if hasSnapshot then width * (78/100) else width * (66/100)
  let cardHeight := height * (if hasSnapshot then 76/100 else 74/100)
  let cardY := height * (13/100)
  let heading := resolvedHeading slide.heading
  let summarySrc := summarySource slide.voiceover slide.description
  let innerPadding : ℚ := 36
  let innerWidth := cardWidth - innerPadding * 2
  let headingLines := wrapTextLines measure innerWidth (jsSplitWhitespace heading)
  let headingOps := headingLines.map fun p => DrawOp.fillTextLine (renderLine p.1 p.2)
  let headingHeight : ℚ := (headingLines.length : ℚ) * 58
  let contentTop := cardY + innerPadding + max headingHeight 52 + 18
  let primaryImage := snapshotImage || backgroundImage
  let summarySegments := jsSplitSegments summarySrc
  let contentOps : List DrawOp :=
    if hasSnapshot then
      let gutter : ℚ := 28
      let textWidth := max (innerWidth * (1/2) - gutter / 2) (innerWidth * (38/100))
      let maxImageHeight := max (cardHeight - (contentTop - cardY) - innerPadding) 120
      let bullets := drawBulletListOps measure summarySegments textWidth 40
      let excerptOps :=
        match slide.pdfExcerpt with
        | some ex =>
          if ex ≠ "" then
            let excerptAvailable := maxImageHeight - bullets.2 - 20
            let excerptHeight := min (max excerptAvailable 0) (min (cardHeight * (35/100)) 220)
            if 80 ≤ excerptHeight then
              drawPdfExcerptOps measure ex slide.pdfPage textWidth excerptHeight
            else []
          else []
        | none => []
      drawPdfSnapshotOps slide.pdfPage ++ bullets.1 ++ excerptOps
    else if primaryImage then
      let bullets := drawBulletListOps measure summarySegments (innerWidth - 16) 40
      let excerptOps :=
        match slide.pdfExcerpt with
        | some ex =>
          if ex ≠ "" then
            drawPdfExcerptOps measure ex slide.pdfPage innerWidth
              (min (cardHeight * (26/100)) 220)
          else []
        | none => []
      drawPdfSnapshotOps (if snapshotImage then slide.pdfPage else none) ++
        bullets.1 ++ excerptOps
    else
      let bullets := drawBulletListOps measure summarySegments (innerWidth - 16) 40
      let excerptOps :=
        match slide.pdfExcerpt with
        | some ex =>
          if ex ≠ "" then
            drawPdfExcerptOps measure ex slide.pdfPage innerWidth
              (min (cardHeight * (26/100)) 220)
          else []
        | none => []
      [DrawOp.placeholderPanel, DrawOp.placeholderLabel placeholderText] ++
        bullets.1 ++ excerptOps
  let codeOps :=
    match slide.codeSnippet with
    | some code =>
      if code ≠ "" then
        let snippetY := cardY + cardHeight - innerPadding - 220
        let snippetHeightAvailable := max (cardY + cardHeight - snippetY - innerPadding) 120
        drawCodeSnippetOps measure code slide.snippetLanguage innerWidth snippetHeightAvailable
      else []
    | none => []
  let accentOps := if primaryImage then [] else [DrawOp.accentArcs, DrawOp.accentSpeckle]
  let completion := ((slideIndex : ℚ) + min (max progress 0) 1) / (totalSlides : ℚ)
  [DrawOp.clearRect, DrawOp.fillFull] ++
    (if backgroundImage then [DrawOp.drawImageCover] else []) ++
    [DrawOp.fillFull, DrawOp.fillFull, DrawOp.cardFill, DrawOp.cardStroke] ++
    headingOps ++ contentOps ++ codeOps ++ accentOps ++
    [DrawOp.progressTrack, DrawOp.progressFill completion]

/-! ## Bridging lemmas -/

/-- The executable floor agrees with Mathlib's floor on `ℚ`. -/
theorem jsFloor_eq (q : ℚ) : jsFloor q = ⌊q⌋ :=
  (Rat.floor_def).symm

/-- The executable ceiling agrees with Mathlib's ceiling on `ℚ`. -/
theorem jsCeil_eq (q : ℚ) : jsCeil q = ⌈q⌉ := by
  rw [jsCeil, jsFloor_eq, Int.floor_neg, neg_neg]

/-! ## Word-wrap invariants (claim C4) -/

/-- Rendering a line without its trailing space, then appending the space,
gives the string the accumulator actually measured. -/
theorem renderLine_trail (ws : List String) :
    renderLine ws true = renderLine ws false ++ " " :=
  rfl

/-- Invariant of the `wrapText` loop: if the incoming line either measures
within `maxW` (with its trailing space) or holds a single word, then every
line the loop commits measures within `maxW` or holds a single word. -/
theorem wrapTextAux_fits (measure : String → ℚ) (maxW : ℚ)
    (hsp : ∀ s, measure s ≤ measure (s ++ " ")) :
    ∀ words lineWs : List String,
      (measure (renderLine lineWs true) ≤ maxW ∨ lineWs.length = 1) →
      fitsAll measure maxW (wrapTextAux measure maxW words lineWs) := by
  intro words
  induction words with
  | nil =>
    intro lineWs hinv p hp
    simp only [wrapTextAux, List.mem_singleton] at hp
    subst hp
    rcases hinv with hle | hone
    · exact Or.inl (le_trans (by rw [renderLine_trail] at hle ⊢; exact hsp _) hle)
    · exact Or.inr hone
  | cons w ws ih =>
    intro lineWs hinv p hp
    simp only [wrapTextAux] at hp
    split at hp
    · rcases List.mem_cons.mp hp with rfl | hp
      · exact hinv
      · exact ih [w] (Or.inr rfl) p hp
    · next hlt => exact ih (lineWs ++ [w]) (Or.inl (le_of_not_lt hlt)) p hp

/-- Invariant of the `drawBulletList` wrap loop: starting from an empty or
fitting or single-word current line, every pushed line fits or is a single
word. -/
theorem bulletWrapAux_fits (measure : String → ℚ) (maxW : ℚ) :
    ∀ words cur : List String,
      (cur = [] ∨ measure (renderLine cur false) ≤ maxW ∨ cur.length = 1) →
      bulletFitsAll measure maxW (bulletWrapAux measure maxW words cur) := by
  intro words
  induction words with
  | nil =>
    intro cur hinv ws hws
    simp only [bulletWrapAux] at hws
    split at hws
    · simp at hws
    · next hne =>
      simp only [List.mem_singleton] at hws
      subst hws
      rcases hinv with rfl | h
      · exact absurd rfl hne
      · exact h
  | cons w ws ih =>
    intro cur hinv l hl
    simp only [bulletWrapAux] at hl
    split at hl
    · next hcond =>
      rcases List.mem_cons.mp hl with rfl | hl
      · rcases hinv with rfl | h
        · exact absurd rfl hcond.2
        · exact h
      · exact ih [w] (Or.inr (Or.inr rfl)) l hl
    · next hcond =>
      by_cases hcur : cur = []
      · subst hcur
        exact ih [w] (Or.inr (Or.inr rfl)) l hl
      · have hle : measure (renderLine (cur ++ [w]) false) ≤ maxW := by
          by_contra hgt
          exact hcond ⟨lt_of_not_le hgt, hcur⟩
        exact ih (cur ++ [w]) (Or.inr (Or.inl hle)) l hl

/-- C4 (confirmed): for every input string and every measurement function
that does not shrink under appending a space, the greedy wrap of `wrapText`
(lines 8–30) never commits a line measuring wider than the available width
unless the line is a single unbreakable word on its own, and the same holds
for every line pushed by the bullet-list wrap of `drawBulletList`
(lines 158–176). -/
theorem wrap_lines_fit (measure : String → ℚ) (maxW : ℚ) (text item : String)
    (hsp : ∀ s, measure s ≤ measure (s ++ " ")) :
    fitsAll measure maxW (wrapTextLines measure maxW (jsSplitWhitespace text)) ∧
    bulletFitsAll measure maxW (bulletWrapLines measure maxW (jsSplitWhitespace item)) := by
  constructor
  · cases h : jsSplitWhitespace text with
    | nil => intro p hp; simp [wrapTextLines] at hp
    | cons w ws =>
      exact wrapTextAux_fits measure maxW hsp ws [w] (Or.inr rfl)
  · exact bulletWrapAux_fits measure maxW (jsSplitWhitespace item) [] (Or.inl rfl)

/-- Witness for C4 at a concrete measurement function and concrete strings. -/
theorem wrap_lines_fit_witness :
    fitsAll (fun _ => 0) 100
      (wrapTextLines (fun _ => 0) 100 (jsSplitWhitespace "hello wrapping world")) ∧
    bulletFitsAll (fun _ => 0) 100
      (bulletWrapLines (fun _ => 0) 100 (jsSplitWhitespace "alpha beta gamma")) :=
  wrap_lines_fit (fun _ => 0) 100 "hello wrapping world" "alpha beta gamma"
    (fun _ => le_rfl)

/-! ## Slide duration (claims C3 and C6) -/

/-- C3 (counterexample): an audio element that fires `onerror` without any
measurable playback (currentTime 0, duration NaN) yields a slide duration of
`defaultDur + 280`, not exactly `defaultSlideDurationMs = 2200` as claimed. -/
theorem audio_error_duration_counterexample :
    slideDurationMs 2200 (AudioOutcome.errored 0 0) = 2480 ∧
    slideDurationMs 2200 (AudioOutcome.errored 0 0) ≠ 2200 := by
  constructor
  · norm_num [slideDurationMs, measuredPlaybackMs]
  · norm_num [slideDurationMs, measuredPlaybackMs]

/-- C3 (amended): a playback error event is sequenced exactly like natural
completion — the awaited promise resolves either way — and the duration is
then `max(defaultDur, playbackMs + 280)` with `playbackMs` falling back from
`currentTime` to `duration` to `defaultDur`; it equals the default exactly
only when that maximum is attained by the default (the plain-default
fallback occurs only on the `catch` path, when `audio.play()` itself
rejects). -/
theorem audio_error_treated_as_ended (d ct da : ℚ) :
    slideDurationMs d (AudioOutcome.errored ct da) =
      slideDurationMs d (AudioOutcome.ended ct da) ∧
    slideDurationMs d (AudioOutcome.errored ct da) =
      max d (measuredPlaybackMs d ct da + 280) ∧
    slideDurationMs d AudioOutcome.playFailed = d :=
  ⟨rfl, rfl, rfl⟩

/-- C6 (confirmed): a slide with no narration audio lasts exactly the
configured default duration, and a slide whose audio completes with a
measurable playback time lasts the larger of the default and the measured
time plus the fixed 280 ms tail (which lies in the spec's 250–300 ms
range). -/
theorem slide_duration_spec (d ct da : ℚ) :
    slideDurationMs d AudioOutcome.noAudio = d ∧
    (ct ≠ 0 →
      slideDurationMs d (AudioOutcome.ended ct da) = max d (ct + 280)) ∧
    ((250 : ℚ) ≤ 280 ∧ (280 : ℚ) ≤ 300) := by
  refine ⟨rfl, ?_, by norm_num⟩
  intro hct
  simp [slideDurationMs, measuredPlaybackMs, hct]

/-- Witness for C6 at a concrete configuration (2200 ms default, one second
of measured audio). -/
theorem slide_duration_spec_witness :
    slideDurationMs 2200 AudioOutcome.noAudio = 2200 ∧
    slideDurationMs 2200 (AudioOutcome.ended 1000 1000) = max 2200 (1000 + 280) := by
  have h := slide_duration_spec 2200 1000 1000
  exact ⟨h.1, h.2.1 (by norm_num)⟩

/-! ## Snapshot cache (claim C5) -/

/-- Clamping is idempotent once the document has at least one page. -/
theorem clampPage_idem (numPages n : ℤ) (h : 1 ≤ numPages) :
    clampPage numPages (clampPage numPages n) = clampPage numPages n := by
  unfold clampPage
  omega

/-- Processing requests never introduces a duplicate key into the cache. -/
theorem runSnapshotRequests_nodup (numPages : ℤ) (reqs : List ℤ) :
    ∀ cache : SnapshotCache, cache.started.Nodup →
      (runSnapshotRequests numPages reqs cache).started.Nodup := by
  induction reqs with
  | nil => intro c h; exact h
  | cons r rs ih =>
    intro c h
    simp only [runSnapshotRequests, List.foldl_cons] at *
    apply ih
    unfold getPdfSnapshotImage
    by_cases hmem : clampPage numPages r ∈ c.started
    · simpa [hmem] using h
    · simp only [hmem, if_false]
      exact List.Nodup.append h (List.nodup_singleton _)
        (by simpa [List.disjoint_singleton] using hmem)

/-- C5 (confirmed): a snapshot request for any integer `n` is served from the
same cache entry — hence resolves to the same bitmap — as the request for
`clamp(n, 1, pageCount)`, the page actually rasterized is the clamped one in
both cases, and within one export at most one rendering is started per
distinct clamped page (the memoized key list stays duplicate-free from the
empty cache the export begins with). -/
theorem snapshot_clamp_and_memoize (numPages n : ℤ) (cache : SnapshotCache)
    (reqs : List ℤ) (h : 1 ≤ numPages) :
    getPdfSnapshotImage numPages n cache =
      getPdfSnapshotImage numPages (clampPage numPages n) cache ∧
    renderedPage numPages n = renderedPage numPages (clampPage numPages n) ∧
    (runSnapshotRequests numPages reqs ⟨[]⟩).started.Nodup := by
  refine ⟨?_, ?_, runSnapshotRequests_nodup numPages reqs ⟨[]⟩ (List.nodup_nil)⟩
  · unfold getPdfSnapshotImage
    rw [clampPage_idem numPages n h]
  · unfold renderedPage
    rw [clampPage_idem numPages n h]

/-- Witness for C5: a 3-page document, the out-of-range request `-5`, and a
request sequence that repeats pages. -/
theorem snapshot_clamp_and_memoize_witness :
    getPdfSnapshotImage 3 (-5) ⟨[]⟩ = getPdfSnapshotImage 3 (clampPage 3 (-5)) ⟨[]⟩ ∧
    renderedPage 3 (-5) = renderedPage 3 (clampPage 3 (-5)) ∧
    (runSnapshotRequests 3 [0, 2, 2, 99, 1] ⟨[]⟩).started.Nodup := by
  have h := snapshot_clamp_and_memoize 3 (-5) ⟨[]⟩ [0, 2, 2, 99, 1] (by norm_num)
  exact ⟨h.1, h.2.1, h.2.2⟩

/-! ## Snapshot page assignment (claim C1) -/

/-- C1 (counterexample): for a 3-page document and slides
`[{pdfPage: 2}, {}, {}]`, the source assigns slide 2 the page
`(1 % 3) + 1 = 2` — the very page slide 1 already used — while pages 1 and 3
are still unused, contradicting the claimed prefer-unused round-robin. -/
theorem page_assignment_counterexample :
    resolvedPdfPage true 3 0 (some 2) = some 2 ∧
    resolvedPdfPage true 3 1 none = some 2 ∧
    resolvedPdfPage true 3 2 none = some 3 ∧
    ¬(resolvedPdfPage true 3 1 none = some 1 ∨
        resolvedPdfPage true 3 1 none = some 3) := by
  decide

/-- C1 (amended): when a document is attached, a slide with a valid explicit
page keeps it, and a slide without one is assigned `(slideIndex % pageCount) + 1`
— a round-robin over the slide index that ignores which pages earlier slides
used, always landing inside `[1, pageCount]`.  In Scenario C the slides
therefore receive pages 2, 2, 3: page 2 is reused before page 1 is ever
used. -/
theorem page_assignment_round_robin (total i : ℕ) (p : ℤ) (h : total ≠ 0) :
    resolvedPdfPage true total i none = some ((i % total + 1 : ℕ) : ℤ) ∧
    (1 ≤ p → resolvedPdfPage true total i (some p) = some p) ∧
    1 ≤ ((i % total + 1 : ℕ) : ℤ) ∧ ((i % total + 1 : ℕ) : ℤ) ≤ (total : ℤ) := by
  have hmod : i % total < total := Nat.mod_lt i (Nat.pos_of_ne_zero h)
  refine ⟨?_, ?_, ?_, ?_⟩
  · simp [resolvedPdfPage, h]
  · intro hp
    simp [resolvedPdfPage, hp]
  · push_cast
    omega
  · push_cast
    omega

/-- Witness for C1's amended statement at a 3-page document and slide index 4. -/
theorem page_assignment_round_robin_witness :
    resolvedPdfPage true 3 4 none = some ((4 % 3 + 1 : ℕ) : ℤ) ∧
    resolvedPdfPage true 3 4 (some 7) = some 7 ∧
    1 ≤ ((4 % 3 + 1 : ℕ) : ℤ) ∧ ((4 % 3 + 1 : ℕ) : ℤ) ≤ (3 : ℤ) := by
  have h := page_assignment_round_robin 3 4 7 (by norm_num)
  exact ⟨h.1, h.2.1 (by norm_num), h.2.2.1, h.2.2.2⟩

/-! ## Audio-context release (claim C2) -/

/-- C2 (counterexample): when `recorder.start()` throws — a stage reached
after `new AudioCtx()` — the export body propagates the exception and the
trailing `audioCtx.close()` is never executed: the audio context leaks. -/
theorem audio_ctx_leak_counterexample :
    (runExport (some FailPoint.recorderStart)).1 = false ∧
    (runExport (some FailPoint.recorderStart)).2.audioCtxCreated = true ∧
    (runExport (some FailPoint.recorderStart)).2.audioCtxClosed = false := by
  decide

/-- C2 (amended): `exportLectureToWebM` closes its audio context exactly on
the run-to-completion path; the body has no `finally`, so an uncaught
exception at any stage — before or after the context is created — exits with
the close skipped. -/
theorem audio_ctx_closed_iff_completed (fault : Option FailPoint) :
    (runExport fault).2.audioCtxClosed = true ↔ (runExport fault).1 = true := by
  cases fault with
  | none => decide
  | some p => cases p <;> decide

/-! ## Frame count floor (claim C9) -/

/-- C9 (confirmed): every slide receives at least one timed repaint; when the
frame count degenerates to one (for example because the computed duration —
and hence a zero or negative `defaultSlideDurationMs` — is nonpositive), the
lone repaint is passed progress fraction 1. -/
theorem frames_always_at_least_one (d fps : ℚ) :
    1 ≤ framesFor d fps ∧
    (framesFor d fps = 1 → progressSeq (framesFor d fps) = [1]) ∧
    (d ≤ 0 → 0 ≤ fps → framesFor d fps = 1) := by
  refine ⟨Nat.le_max_left _ _, ?_, ?_⟩
  · intro h
    rw [h]
    decide
  · intro hd hfps
    have hq : d / (1000 / fps) ≤ 0 := by
      rcases eq_or_lt_of_le hfps with h0 | hpos
      · rw [← h0, div_zero, div_zero]
      · exact div_nonpos_of_nonpos_of_nonneg hd (by positivity)
    have hceil : jsCeil (d / (1000 / fps)) ≤ 0 := by
      rw [jsCeil_eq]
      exact Int.ceil_le.mpr (by exact_mod_cast hq)
    unfold framesFor
    rw [Int.toNat_eq_zero.mpr hceil]
    simp

/-- Witness for C9 at duration 0 and 30 fps. -/
theorem frames_always_at_least_one_witness :
    1 ≤ framesFor 0 30 ∧ progressSeq (framesFor 0 30) = [1] ∧
    framesFor 0 30 = 1 := by
  have h := frames_always_at_least_one 0 30
  have h1 : framesFor 0 30 = 1 := h.2.2 le_rfl (by norm_num)
  exact ⟨h.1, h.2.1 h1, h1⟩

/-! ## Whitespace voiceover and heading fallback (claim C10) -/

/-- C10 (confirmed): a whitespace-only voiceover trims to the falsy empty
string, so the on-screen body text falls back to the slide's narration text
exactly as when the voiceover is missing; a missing or whitespace-only
heading is replaced by the fixed generic label. -/
theorem whitespace_voiceover_falls_back (v hd desc : String) :
    (jsTrim v = "" →
      summarySource (some v) desc = desc ∧ summarySource none desc = desc) ∧
    (jsTrim hd = "" → resolvedHeading (some hd) = "Key Insight") ∧
    resolvedHeading none = "Key Insight" := by
  refine ⟨?_, ?_, by simp [resolvedHeading]⟩
  · intro hv
    constructor
    · by_cases h0 : v = "" <;> simp [summarySource, h0, hv]
    · simp [summarySource]
  · intro hh
    simp [resolvedHeading, hh]

/-- Witness for C10 with a space-only voiceover and a tab-only heading. -/
theorem whitespace_voiceover_falls_back_witness :
    summarySource (some " ") "narration body" = "narration body" ∧
    summarySource none "narration body" = "narration body" ∧
    resolvedHeading (some "\t") = "Key Insight" ∧
    resolvedHeading none = "Key Insight" := by
  have h := whitespace_voiceover_falls_back " " "\t" "narration body"
  have h1 := h.1 (by decide)
  exact ⟨h1.1, h1.2, h.2.1 (by decide), h.2.2⟩

/-! ## Progress fractions (claim C7) -/

/-- The per-frame progress fractions of one slide are non-decreasing. -/
theorem progressSeq_chain (n : ℕ) : List.Chain' (· ≤ ·) (progressSeq n) := by
  cases n with
  | zero => simp [progressSeq]
  | succ m =>
    unfold progressSeq
    rw [List.chain'_map, List.chain'_range_succ]
    intro i _
    by_cases h1 : 1 < m + 1
    · simp only [if_pos h1]
      have hm : (0 : ℚ) < ((m + 1 : ℕ) : ℚ) - 1 := by
        push_cast
        have : 1 ≤ m := by omega
        have : (1 : ℚ) ≤ (m : ℚ) := by exact_mod_cast this
        linarith
      apply div_le_div_of_nonneg_right ?_ hm.le
      · exact_mod_cast Nat.le_succ i
    · simp [h1]

/-- The last repaint of a slide is passed progress exactly 1. -/
theorem progressSeq_getLast (n : ℕ) (h : n ≠ 0) :
    (progressSeq n).getLast? = some 1 := by
  obtain ⟨m, rfl⟩ := Nat.exists_eq_succ_of_ne_zero h
  unfold progressSeq
  rw [List.range_succ, List.map_append]
  simp only [List.map_cons, List.map_nil]
  rw [List.getLast?_concat]
  congr 1
  by_cases h1 : 1 < m + 1
  · rw [if_pos h1]
    have hm : ((m + 1 : ℕ) : ℚ) - 1 = (m : ℚ) := by push_cast; ring
    rw [hm]
    have hm0 : (m : ℚ) ≠ 0 := by
      have : m ≠ 0 := by omega
      exact_mod_cast this
    exact div_self hm0
  · rw [if_neg h1]

/-- With at least two repaint frames, the first repaint is passed progress 0. -/
theorem progressSeq_head (n : ℕ) (h : 2 ≤ n) : (progressSeq n).head? = some 0 := by
  obtain ⟨m, rfl⟩ : ∃ m, n = m + 1 := ⟨n - 1, by omega⟩
  unfold progressSeq
  rw [List.range_succ_eq_map]
  simp only [List.map_cons, List.head?_cons]
  congr 1
  rw [if_pos (by omega : 1 < m + 1)]
  simp

/-- C7 (counterexample): with `defaultSlideDurationMs = 10` (no audio) and
30 fps the slide gets a single repaint frame, and the first — and only —
repaint is passed progress 1, not 0 as the claim requires of every slide. -/
theorem progress_first_frame_counterexample :
    (progressSeq (framesFor (slideDurationMs 10 AudioOutcome.noAudio) 30)).head? =
      some 1 ∧
    ¬((progressSeq (framesFor (slideDurationMs 10 AudioOutcome.noAudio) 30)).head? =
      some 0) := by
  have hdur : slideDurationMs 10 AudioOutcome.noAudio = 10 := rfl
  have hc : jsCeil ((10 : ℚ) / (1000 / 30)) = 1 := by
    rw [jsCeil_eq, Int.ceil_eq_iff]
    norm_num
  have hframes : framesFor 10 30 = 1 := by
    unfold framesFor
    rw [hc]
    rfl
  rw [hdur, hframes]
  decide

/-- C7 (amended): for every slide the per-frame progress fractions are
non-decreasing and the last repaint is passed exactly 1; the first repaint is
passed 0 whenever the slide has at least two timed repaint frames (a slide
whose duration fits in a single frame interval gets one repaint at
progress 1). -/
theorem progress_monotone (d fps : ℚ) :
    List.Chain' (· ≤ ·) (progressSeq (framesFor d fps)) ∧
    (progressSeq (framesFor d fps)).getLast? = some 1 ∧
    (2 ≤ framesFor d fps → (progressSeq (framesFor d fps)).head? = some 0) := by
  refine ⟨progressSeq_chain _, progressSeq_getLast _ ?_, fun h => progressSeq_head _ h⟩
  have := Nat.le_max_left 1 (jsCeil (d / (1000 / fps))).toNat
  unfold framesFor
  omega

/-- Witness for C7's amended statement at the default configuration
(2200 ms, 30 fps: 66 frames). -/
theorem progress_monotone_witness :
    List.Chain' (· ≤ ·) (progressSeq (framesFor 2200 30)) ∧
    (progressSeq (framesFor 2200 30)).getLast? = some 1 ∧
    (progressSeq (framesFor 2200 30)).head? = some 0 := by
  have h := progress_monotone 2200 30
  have hc : jsCeil ((2200 : ℚ) / (1000 / 30)) = 66 := by
    rw [jsCeil_eq, Int.ceil_eq_iff]
    norm_num
  have hframes : framesFor 2200 30 = 66 := by
    unfold framesFor
    rw [hc]
    rfl
  exact ⟨h.1, h.2.1, h.2.2 (by rw [hframes]; norm_num)⟩

/-! ## Empty-slide placeholder (claim C8) -/

/-- C8 (confirmed): painting a slide with no background image, no snapshot,
no code snippet and empty narration text completes (the trace function is
total) and paints a non-blank surface containing the placeholder panel and
its label. -/
theorem empty_slide_draws_placeholder (measure : String → ℚ) (slide : Slide)
    (w h : ℚ) (i n : ℕ) (progress : ℚ)
    (hcode : slide.codeSnippet = none) (_hdesc : slide.description = "") :
    DrawOp.placeholderPanel ∈ drawSlideOps measure slide false false w h i n progress ∧
    DrawOp.placeholderLabel placeholderText ∈
      drawSlideOps measure slide false false w h i n progress ∧
    drawSlideOps measure slide false false w h i n progress ≠ [] := by
  refine ⟨?_, ?_, ?_⟩ <;> simp [drawSlideOps, hcode]

/-- Concrete empty slide for the C8 witness. -/
def emptySlide : Slide :=
  ⟨"", none, none, none, none, none, none, none, none, none⟩

/-- Witness for C8 at a concrete empty slide and the default surface. -/
theorem empty_slide_draws_placeholder_witness :
    DrawOp.placeholderPanel ∈ drawSlideOps (fun _ => 0) emptySlide false false 1280 720 0 1 0 ∧
    DrawOp.placeholderLabel placeholderText ∈
      drawSlideOps (fun _ => 0) emptySlide false false 1280 720 0 1 0 ∧
    drawSlideOps (fun _ => 0) emptySlide false false 1280 720 0 1 0 ≠ [] :=
  empty_slide_draws_placeholder (fun _ => 0) emptySlide 1280 720 0 1 0 rfl rfl
